import Mathlib

/-!
Verification of the column comparator `compare_series` (src/compare_ids.py).

A pandas Series of values of type `α` is embedded as a `List (Val α)`,
where `Val α := Option α` and `none` stands for the missing marker (NaN):
pandas treats all missing markers alike, and for object-dtype series two
missing markers compare equal, matching `Option.none = Option.none`.

Python insertion-ordered dicts keyed by values are embedded as
first-appearance-deduplicated lists (only the key order of the dicts built
in the source is ever consumed). Python string-keyed dicts (the `counts`
summary and the columns of the `details` DataFrame) are embedded as
functions `String → Option _` updated in source order: a later write to an
existing key overwrites the earlier value, exactly as in a Python dict or
DataFrame column assignment.
-/

set_option autoImplicit false
set_option linter.unusedSectionVars false

universe u v

variable {α : Type u} [DecidableEq α]
variable {β : Type u} [DecidableEq β]

/-- A Series cell: `none` is the missing marker (NaN), `some x` a value. -/
abbrev Val (α : Type u) : Type u := Option α

/-- The function `fakRel seen l` lists, in order, the first occurrences of the values of
`l` that are not already in `seen`.  It is the recursive core of the
source's `first_appearance_order` dict-building loop (lines 52–58): the
dict's keys in insertion order, relative to an already-seen accumulator. -/
def fakRel (seen : List β) : List β → List β
  | [] => []
  | v :: l => if v ∈ seen then fakRel seen l else v :: fakRel (seen ++ [v]) l

/-- Key list, in insertion order, of the `first_idx` dict built by
`first_appearance_order` (src/compare_ids.py lines 52–58).  Only the keys
of that dict are consumed downstream (the stored indices are recomputed by
the combining loop), so the embedding keeps just the ordered key list. -/
def firstAppearanceKeys (s : List β) : List β :=
  fakRel [] s

theorem fakRel_of_mem {seen : List β} {v : β} {l : List β} (h : v ∈ seen) :
    fakRel seen (v :: l) = fakRel seen l := by
  simp [fakRel, h]

theorem fakRel_of_not_mem {seen : List β} {v : β} {l : List β} (h : ¬ v ∈ seen) :
    fakRel seen (v :: l) = v :: fakRel (seen ++ [v]) l := by
  simp [fakRel, h]

/-- The result of `fakRel` only depends on the membership of the accumulator. -/
theorem fakRel_congr : ∀ (l : List β) (s₁ s₂ : List β),
    (∀ x, x ∈ s₁ ↔ x ∈ s₂) → fakRel s₁ l = fakRel s₂ l := by
  intro l
  induction l with
  | nil => intro s₁ s₂ _; rfl
  | cons v l ih =>
    intro s₁ s₂ hmem
    by_cases hv : v ∈ s₁
    · rw [fakRel_of_mem hv, fakRel_of_mem ((hmem v).mp hv)]
      exact ih s₁ s₂ hmem
    · rw [fakRel_of_not_mem hv, fakRel_of_not_mem (fun h => hv ((hmem v).mpr h))]
      refine congrArg _ (ih _ _ ?_)
      intro x
      simp only [List.mem_append, List.mem_singleton]
      exact or_congr (hmem x) Iff.rfl

theorem mem_fakRel {x : β} : ∀ {l seen : List β},
    x ∈ fakRel seen l ↔ x ∈ l ∧ ¬ x ∈ seen := by
  intro l
  induction l with
  | nil => intro seen; simp [fakRel]
  | cons v l ih =>
    intro seen
    by_cases hv : v ∈ seen
    · rw [fakRel_of_mem hv, ih]
      constructor
      · rintro ⟨hl, hs⟩; exact ⟨List.mem_cons_of_mem v hl, hs⟩
      · rintro ⟨hl, hs⟩
        rcases List.mem_cons.mp hl with rfl | hl
        · exact absurd hv hs
        · exact ⟨hl, hs⟩
    · rw [fakRel_of_not_mem hv]
      constructor
      · intro h
        rcases List.mem_cons.mp h with rfl | h
        · exact ⟨List.mem_cons_self x l, hv⟩
        · rcases ih.mp h with ⟨hl, hs⟩
          refine ⟨List.mem_cons_of_mem v hl, fun hx => hs ?_⟩
          simp [hx]
      · rintro ⟨hl, hs⟩
        rcases List.mem_cons.mp hl with rfl | hl
        · exact List.mem_cons_self x _
        · by_cases hxv : x = v
          · subst hxv; exact List.mem_cons_self x _
          · refine List.mem_cons_of_mem v (ih.mpr ⟨hl, ?_⟩)
            simp [hs, hxv]

theorem fakRel_nodup : ∀ (l seen : List β), (fakRel seen l).Nodup := by
  intro l
  induction l with
  | nil => intro seen; simp [fakRel]
  | cons v l ih =>
    intro seen
    by_cases hv : v ∈ seen
    · rw [fakRel_of_mem hv]; exact ih seen
    · rw [fakRel_of_not_mem hv]
      refine List.nodup_cons.mpr ⟨fun h => ?_, ih _⟩
      have := (mem_fakRel.mp h).2
      simp at this

/-- Splitting `fakRel` over an append: the second chunk is processed with
the first chunk added to the seen-set. -/
theorem fakRel_append : ∀ (l₁ l₂ seen : List β),
    fakRel seen (l₁ ++ l₂) = fakRel seen l₁ ++ fakRel (seen ++ l₁) l₂ := by
  intro l₁
  induction l₁ with
  | nil => intro l₂ seen; simp [fakRel]
  | cons v l ih =>
    intro l₂ seen
    by_cases hv : v ∈ seen
    · rw [List.cons_append, fakRel_of_mem hv, fakRel_of_mem hv, ih]
      refine congrArg _ (fakRel_congr _ _ _ ?_)
      intro x
      simp only [List.mem_append, List.mem_cons]
      constructor
      · rintro (h | h)
        · exact Or.inl h
        · exact Or.inr (Or.inr h)
      · rintro (h | rfl | h)
        · exact Or.inl h
        · exact Or.inl hv
        · exact Or.inr h
    · rw [List.cons_append, fakRel_of_not_mem hv, fakRel_of_not_mem hv, ih, List.cons_append]
      refine congrArg _ (congrArg _ (fakRel_congr _ _ _ ?_))
      intro x
      simp only [List.mem_append, List.mem_singleton, List.mem_cons]
      tauto

/-- Pre-deduplicating a prefix relative to the same seen-set is invisible
to an outer `fakRel` pass. -/
theorem fakRel_fakRel_append : ∀ (l₁ l₂ seen : List β),
    fakRel seen (fakRel seen l₁ ++ l₂) = fakRel seen (l₁ ++ l₂) := by
  intro l₁
  induction l₁ with
  | nil => intro l₂ seen; simp [fakRel]
  | cons v l ih =>
    intro l₂ seen
    by_cases hv : v ∈ seen
    · rw [fakRel_of_mem hv, List.cons_append, fakRel_of_mem hv, ih]
    · rw [fakRel_of_not_mem hv, List.cons_append, List.cons_append,
        fakRel_of_not_mem hv, fakRel_of_not_mem hv, ih]

/-- Deduplicating relative to a smaller seen-set is absorbed by an outer
pass over a larger seen-set. -/
theorem fakRel_fakRel_absorb : ∀ (l seen₀ seen : List β),
    (∀ x, x ∈ seen₀ → x ∈ seen) →
    fakRel seen (fakRel seen₀ l) = fakRel seen l := by
  intro l
  induction l with
  | nil => intro seen₀ seen _; rfl
  | cons v l ih =>
    intro seen₀ seen hsub
    by_cases h₀ : v ∈ seen₀
    · rw [fakRel_of_mem h₀, fakRel_of_mem (hsub v h₀), ih _ _ hsub]
    · rw [fakRel_of_not_mem h₀]
      by_cases hv : v ∈ seen
      · rw [fakRel_of_mem hv, fakRel_of_mem hv]
        refine ih _ _ ?_
        intro x hx
        rcases List.mem_append.mp hx with hx | hx
        · exact hsub x hx
        · rw [List.mem_singleton.mp hx]; exact hv
      · rw [fakRel_of_not_mem hv, fakRel_of_not_mem hv]
        refine congrArg _ (ih _ _ ?_)
        intro x hx
        rcases List.mem_append.mp hx with hx | hx
        · exact List.mem_append.mpr (Or.inl (hsub x hx))
        · exact List.mem_append.mpr (Or.inr hx)

theorem mem_firstAppearanceKeys {x : β} {s : List β} :
    x ∈ firstAppearanceKeys s ↔ x ∈ s := by
  simp [firstAppearanceKeys, mem_fakRel]

theorem firstAppearanceKeys_nodup (s : List β) : (firstAppearanceKeys s).Nodup :=
  fakRel_nodup s []

/-- The key order of the `combined_order` dict (src/compare_ids.py lines
63–69): iterate the keys of `order_a` then of `order_b`, appending each key
not yet present.  This is a first-appearance pass over the concatenation of
the two key lists. -/
def combinedOrderKeys (sa sb : List β) : List β :=
  firstAppearanceKeys (firstAppearanceKeys sa ++ firstAppearanceKeys sb)

/-- The combined order is the first-appearance scan of A's working sequence
followed by B's working sequence. -/
theorem combinedOrderKeys_eq_scan (sa sb : List β) :
    combinedOrderKeys sa sb = firstAppearanceKeys (sa ++ sb) := by
  unfold combinedOrderKeys firstAppearanceKeys
  rw [fakRel_fakRel_append, fakRel_append, fakRel_append]
  refine congrArg _ ?_
  rw [fakRel_fakRel_absorb _ _ _ (by intro x h; simp at h)]

theorem mem_combinedOrderKeys {x : β} {sa sb : List β} :
    x ∈ combinedOrderKeys sa sb ↔ x ∈ sa ∨ x ∈ sb := by
  rw [combinedOrderKeys_eq_scan]
  simp [mem_firstAppearanceKeys]

/-! ## Series-level operations (src/compare_ids.py, `compare_series`) -/

/-- Embedding of `Series.dropna`: the working view with missing markers removed. -/
def dropna (s : List (Val α)) : List (Val α) :=
  s.filter Option.isSome

/-- Embedding of `a.isna().sum()` (lines 44–45): number of missing markers in the raw
input sequence. -/
def naCount (s : List (Val α)) : Nat :=
  s.countP Option.isNone

/-- Lines 48–49: the sequence used for set-like operations — missing
markers dropped when `dropna_for_sets` is set, the raw sequence otherwise. -/
def workSeq (dropna_for_sets : Bool) (s : List (Val α)) : List (Val α) :=
  if dropna_for_sets then dropna s else s

/-- A Python `set(s.tolist())` (lines 72–73), represented canonically by
the list of distinct elements of `s` in first-appearance order.  A Python
set's own iteration order is unspecified; every downstream use (sizes and
`_ordered_list`) is insensitive to the enumeration order, which theorem
`compare_series_enumeration_independent` makes precise. -/
def pySet (s : List β) : List β :=
  firstAppearanceKeys s

/-- Python `set_a & set_b` on distinct-element lists. -/
def pyInter (s t : List β) : List β :=
  s.filter (fun x => decide (x ∈ t))

/-- Python `set_a - set_b` on distinct-element lists. -/
def pyDiff (s t : List β) : List β :=
  s.filter (fun x => decide (¬ x ∈ t))

/-- Python `set_a | set_b` on distinct-element lists. -/
def pyUnion (s t : List β) : List β :=
  s ++ pyDiff t s

/-- Python `set_a ^ set_b` on distinct-element lists. -/
def pySymDiff (s t : List β) : List β :=
  pyDiff s t ++ pyDiff t s

/-- Embedding of `_ordered_list(values, order_map)` (lines 128–130): a stable sort of the
set's elements by `order_map.get(x, float("inf"))`.  Every element present
in `keys` has a distinct finite sort key (`keys` is duplicate-free), so the
sorted output starts with the subsequence of `keys` restricted to `values`;
elements absent from `keys` all share the key `inf` and trail behind (their
relative order is the set's unspecified enumeration order — canonically the
first-appearance order here; theorem `compare_series_no_inf_fallback` shows
this tail is empty on every call the comparator makes). -/
def orderedList (values keys : List β) : List β :=
  keys.filter (fun x => decide (x ∈ values)) ++
    values.filter (fun x => decide (¬ x ∈ keys))

/-- Embedding of `s.value_counts(dropna=False)` (lines 81–82) as a total lookup:
`vc.get(v, 0)` is the number of occurrences of `v` in the raw sequence,
missing markers forming one category. -/
def valueCounts (s : List (Val α)) : Val α → Nat :=
  fun v => s.count v

/-- Embedding of `Series.nunique()`: number of distinct values (applied to an already
missing-free sequence in the source, line 103–104). -/
def nunique (s : List (Val α)) : Nat :=
  (firstAppearanceKeys s).length

/-- One overwrite-or-insert update of a Python string-keyed dict, embedded
as its lookup function: a later write to the same key wins. -/
def updN (d : String → Option Nat) (k : String) (v : Nat) : String → Option Nat :=
  fun q => if q = k then some v else d q

/-- The `counts_summary` dict (lines 100–112), built by eleven writes in
source order; duplicate keys (possible when `name_a = name_b`, or when a
label collides with one of the three fixed keys) are overwritten by the
later write, exactly as in a Python dict literal. -/
def countsSummary (a b : List (Val α)) (name_a name_b : String) (fl : Bool) :
    String → Option Nat :=
  let set_a := pySet (workSeq fl a)
  let set_b := pySet (workSeq fl b)
  updN (updN (updN (updN (updN (updN (updN (updN (updN (updN (updN (fun _ => none)
    ("n_" ++ name_a) a.length)
    ("n_" ++ name_b) b.length)
    ("n_unique_" ++ name_a) (nunique (dropna a)))
    ("n_unique_" ++ name_b) (nunique (dropna b)))
    "n_overlap_values" (pyInter set_a set_b).length)
    ("n_only_in_" ++ name_a) (pyDiff set_a set_b).length)
    ("n_only_in_" ++ name_b) (pyDiff set_b set_a).length)
    "n_union_values" (pyUnion set_a set_b).length)
    "n_symmetric_difference" (pySymDiff set_a set_b).length)
    ("na_count_" ++ name_a) (naCount a))
    ("na_count_" ++ name_b) (naCount b)

/-- A DataFrame column: integer counts or boolean flags. -/
inductive PyCol : Type where
  | nats (l : List Nat) : PyCol
  | bools (l : List Bool) : PyCol

/-- Read a column as an integer list (`[]` when absent or boolean —
unreachable in the comparator's flows). -/
def colNats : Option PyCol → List Nat
  | some (PyCol.nats l) => l
  | _ => []

/-- Read a column as a boolean list (`[]` when absent or integer —
unreachable in the comparator's flows). -/
def colBools : Option PyCol → List Bool
  | some (PyCol.bools l) => l
  | _ => []

/-- One column assignment `details[k] = c`: overwrite or create. -/
def colSet (f : String → Option PyCol) (k : String) (c : PyCol) :
    String → Option PyCol :=
  fun q => if q = k then some c else f q

/-- The `details` DataFrame: a row index plus named columns. -/
structure PyFrame (α : Type u) : Type u where
  index : List (Val α)
  col : String → Option PyCol

/-- Columns after the DataFrame constructor (lines 86–92): the two count
columns from the dict literal; duplicate keys keep the later column. -/
def dCols0 (idx : List (Val α)) (vc_a vc_b : Val α → Nat)
    (name_a name_b : String) : String → Option PyCol :=
  colSet (colSet (fun _ => none)
    ("count_in_" ++ name_a) (PyCol.nats (idx.map vc_a)))
    ("count_in_" ++ name_b) (PyCol.nats (idx.map vc_b))

/-- Columns after line 93: `details[f"in_{name_a}"] = count_in_A > 0`. -/
def dCols1 (idx : List (Val α)) (vc_a vc_b : Val α → Nat)
    (name_a name_b : String) : String → Option PyCol :=
  colSet (dCols0 idx vc_a vc_b name_a name_b) ("in_" ++ name_a) (PyCol.bools
    ((colNats (dCols0 idx vc_a vc_b name_a name_b ("count_in_" ++ name_a))).map
      (fun c => decide (0 < c))))

/-- Columns after line 94: `details[f"in_{name_b}"] = count_in_B > 0`. -/
def dCols2 (idx : List (Val α)) (vc_a vc_b : Val α → Nat)
    (name_a name_b : String) : String → Option PyCol :=
  colSet (dCols1 idx vc_a vc_b name_a name_b) ("in_" ++ name_b) (PyCol.bools
    ((colNats (dCols1 idx vc_a vc_b name_a name_b ("count_in_" ++ name_b))).map
      (fun c => decide (0 < c))))

/-- Columns after line 95: `details["in_both"] = in_A & in_B`. -/
def dCols3 (idx : List (Val α)) (vc_a vc_b : Val α → Nat)
    (name_a name_b : String) : String → Option PyCol :=
  colSet (dCols2 idx vc_a vc_b name_a name_b) "in_both" (PyCol.bools
    (List.zipWith (fun x y => x && y)
      (colBools (dCols2 idx vc_a vc_b name_a name_b ("in_" ++ name_a)))
      (colBools (dCols2 idx vc_a vc_b name_a name_b ("in_" ++ name_b)))))

/-- Columns after line 96: `details[f"only_in_{name_a}"] = in_A & ~in_B`. -/
def dCols4 (idx : List (Val α)) (vc_a vc_b : Val α → Nat)
    (name_a name_b : String) : String → Option PyCol :=
  colSet (dCols3 idx vc_a vc_b name_a name_b) ("only_in_" ++ name_a) (PyCol.bools
    (List.zipWith (fun x y => x && !y)
      (colBools (dCols3 idx vc_a vc_b name_a name_b ("in_" ++ name_a)))
      (colBools (dCols3 idx vc_a vc_b name_a name_b ("in_" ++ name_b)))))

/-- Columns after line 97: `details[f"only_in_{name_b}"] = in_B & ~in_A`. -/
def dCols5 (idx : List (Val α)) (vc_a vc_b : Val α → Nat)
    (name_a name_b : String) : String → Option PyCol :=
  colSet (dCols4 idx vc_a vc_b name_a name_b) ("only_in_" ++ name_b) (PyCol.bools
    (List.zipWith (fun x y => x && !y)
      (colBools (dCols4 idx vc_a vc_b name_a name_b ("in_" ++ name_b)))
      (colBools (dCols4 idx vc_a vc_b name_a name_b ("in_" ++ name_a)))))

/-- Construction of `details` (lines 86–97): the two count columns come from
the DataFrame-constructor dict literal (duplicate keys keep the later
column), then the five flag columns are assigned in source order, each
reading the current state of the named columns. -/
def buildDetails (idx : List (Val α)) (vc_a vc_b : Val α → Nat)
    (name_a name_b : String) : PyFrame α :=
  { index := idx, col := dCols5 idx vc_a vc_b name_a name_b }

/-- The structured summary returned by `compare_series` (lines 114–124). -/
structure ComparisonReport (α : Type u) : Type u where
  intersection : List (Val α)
  only_in_a : List (Val α)
  only_in_b : List (Val α)
  union : List (Val α)
  symmetric_difference : List (Val α)
  counts : String → Option Nat
  value_counts_a : Val α → Nat
  value_counts_b : Val α → Nat
  details : PyFrame α

/-- Embedding of `compare_series` (src/compare_ids.py lines 4–125), after the input-type
guard has passed. -/
def compare_series (a b : List (Val α)) (name_a name_b : String)
    (dropna_for_sets : Bool) : ComparisonReport α :=
  let as_set := workSeq dropna_for_sets a
  let bs_set := workSeq dropna_for_sets b
  let combined_order := combinedOrderKeys as_set bs_set
  let set_a := pySet as_set
  let set_b := pySet bs_set
  { intersection := orderedList (pyInter set_a set_b) combined_order
    only_in_a := orderedList (pyDiff set_a set_b) combined_order
    only_in_b := orderedList (pyDiff set_b set_a) combined_order
    union := orderedList (pyUnion set_a set_b) combined_order
    symmetric_difference := orderedList (pySymDiff set_a set_b) combined_order
    counts := countsSummary a b name_a name_b dropna_for_sets
    value_counts_a := valueCounts a
    value_counts_b := valueCounts b
    details := buildDetails (orderedList (pyUnion set_a set_b) combined_order)
      (valueCounts a) (valueCounts b) name_a name_b }

/-- A dynamically-typed argument as the Python function receives it:
either a pandas Series or any other object. -/
inductive PyObj (α : Type u) : Type u where
  | series (s : List (Val α)) : PyObj α
  | notSeries : PyObj α

/-- Whether the argument is a pandas Series (`isinstance(·, pd.Series)`). -/
def PyObj.isSeries : PyObj α → Bool
  | PyObj.series _ => true
  | PyObj.notSeries => false

/-- Embedding of `compare_series` including the input-type guard of lines 40–41: a
`TypeError` when either argument is not a Series, the report otherwise. -/
def compare_checked (x y : PyObj α) (name_a name_b : String)
    (dropna_for_sets : Bool) : Except String (ComparisonReport α) :=
  match x, y with
  | PyObj.series a, PyObj.series b =>
      Except.ok (compare_series a b name_a name_b dropna_for_sets)
  | _, _ => Except.error "Both inputs must be pandas Series."

/-- Whether an `Except` result is a success. -/
def exceptIsOk {ε : Type v} {γ : Type u} : Except ε γ → Bool
  | Except.ok _ => true
  | Except.error _ => false

/-! ## Membership characterisations of the embedded set operations -/

theorem mem_pySet {x : β} {s : List β} : x ∈ pySet s ↔ x ∈ s :=
  mem_firstAppearanceKeys

theorem mem_pyInter {x : β} {s t : List β} :
    x ∈ pyInter s t ↔ x ∈ s ∧ x ∈ t := by
  simp [pyInter]

theorem mem_pyDiff {x : β} {s t : List β} :
    x ∈ pyDiff s t ↔ x ∈ s ∧ ¬ x ∈ t := by
  simp [pyDiff]

theorem mem_pyUnion {x : β} {s t : List β} :
    x ∈ pyUnion s t ↔ x ∈ s ∨ x ∈ t := by
  simp [pyUnion, pyDiff]
  tauto

theorem mem_pySymDiff {x : β} {s t : List β} :
    x ∈ pySymDiff s t ↔ (x ∈ s ∧ ¬ x ∈ t) ∨ (x ∈ t ∧ ¬ x ∈ s) := by
  simp [pySymDiff, pyDiff]

theorem mem_orderedList {x : β} {values keys : List β} :
    x ∈ orderedList values keys ↔ x ∈ values := by
  simp only [orderedList, List.mem_append, List.mem_filter, decide_eq_true_eq]
  by_cases h : x ∈ keys <;> tauto

/-- When every element of the set has an assigned position, the sorted
output is exactly the order-key list restricted to the set. -/
theorem orderedList_eq_filter {values keys : List β}
    (h : ∀ x ∈ values, x ∈ keys) :
    orderedList values keys = keys.filter (fun x => decide (x ∈ values)) := by
  unfold orderedList
  have h2 : values.filter (fun x => decide (¬ x ∈ keys)) = [] := by
    rw [List.filter_eq_nil_iff]
    intro a ha
    simpa using h a ha
  rw [h2, List.append_nil]

/-- When the set and the order-key list have the same members, the sorted
output is the order-key list itself. -/
theorem orderedList_eq_keys {values keys : List β}
    (h1 : ∀ x ∈ values, x ∈ keys) (h2 : ∀ x ∈ keys, x ∈ values) :
    orderedList values keys = keys := by
  rw [orderedList_eq_filter h1]
  refine List.filter_eq_self.mpr ?_
  intro a ha
  exact decide_eq_true (h2 a ha)

theorem mem_workSeq_false {x : Val α} {s : List (Val α)} :
    x ∈ workSeq false s ↔ x ∈ s := by
  simp [workSeq]

/-! ## String and Bool helper lemmas -/

theorem strData_append (s t : String) : (s ++ t).data = s.data ++ t.data :=
  rfl

theorem strAppend_ne_of_length {s u : String} (t : String)
    (h : s.length ≠ u.length) : s ++ t ≠ u ++ t := by
  intro he
  apply h
  have hl := congrArg String.length he
  rw [String.length_append, String.length_append] at hl
  omega

theorem strAppend_ne_of_data_ne {s u : String} (t v : String) (i : Nat)
    (h1 : i < s.data.length) (h2 : i < u.data.length)
    (hne : s.data[i]? ≠ u.data[i]?) : s ++ t ≠ u ++ v := by
  intro he
  apply hne
  have hd := congrArg String.data he
  rw [strData_append, strData_append] at hd
  calc s.data[i]? = (s.data ++ t.data)[i]? := (List.getElem?_append_left h1).symm
    _ = (u.data ++ v.data)[i]? := by rw [hd]
    _ = u.data[i]? := List.getElem?_append_left h2

theorem strAppend_ne_lit {s u : String} (t : String) (i : Nat)
    (h1 : i < s.data.length)
    (hne : s.data[i]? ≠ u.data[i]?) : s ++ t ≠ u := by
  intro he
  apply hne
  have hd := congrArg String.data he
  rw [strData_append] at hd
  calc s.data[i]? = (s.data ++ t.data)[i]? := (List.getElem?_append_left h1).symm
    _ = u.data[i]? := by rw [hd]

theorem strAppend_left_cancel {s t u : String} (h : s ++ t = s ++ u) :
    t = u := by
  have hd := congrArg String.data h
  rw [strData_append, strData_append] at hd
  have hc := List.append_cancel_left hd
  cases t
  cases u
  exact congrArg String.mk hc

theorem zipWith_and_self (l : List Bool) :
    List.zipWith (fun x y => x && y) l l = l := by
  induction l with
  | nil => rfl
  | cons x l ih => simp [List.zipWith, ih]

theorem zipWith_and_not_self (l : List Bool) :
    List.zipWith (fun x y => x && !y) l l = List.replicate l.length false := by
  induction l with
  | nil => rfl
  | cons x l ih => simp [List.zipWith, ih, List.replicate]

/-! ## Claim theorems -/

/-- C1: for every pair of input sequences and every value of the exclusion
flag, the report satisfies the classic set-algebra equations over distinct
working-sequence values: intersection ∪ only_in_a ∪ only_in_b has exactly
the members of union, only_in_a and only_in_b are disjoint,
symmetric_difference has exactly the members of only_in_a ∪ only_in_b, and
symmetric_difference is disjoint from intersection. -/
theorem compare_series_set_algebra (a b : List (Val α)) (name_a name_b : String)
    (fl : Bool) (x : Val α) :
    ((x ∈ (compare_series a b name_a name_b fl).intersection ∨
      x ∈ (compare_series a b name_a name_b fl).only_in_a ∨
      x ∈ (compare_series a b name_a name_b fl).only_in_b) ↔
      x ∈ (compare_series a b name_a name_b fl).union) ∧
    ¬ (x ∈ (compare_series a b name_a name_b fl).only_in_a ∧
       x ∈ (compare_series a b name_a name_b fl).only_in_b) ∧
    (x ∈ (compare_series a b name_a name_b fl).symmetric_difference ↔
      (x ∈ (compare_series a b name_a name_b fl).only_in_a ∨
       x ∈ (compare_series a b name_a name_b fl).only_in_b)) ∧
    ¬ (x ∈ (compare_series a b name_a name_b fl).symmetric_difference ∧
       x ∈ (compare_series a b name_a name_b fl).intersection) := by
  simp only [compare_series, mem_orderedList, mem_pyInter, mem_pyDiff,
    mem_pyUnion, mem_pySymDiff, mem_pySet]
  tauto

/-- Every member of any of the five computed sets has a position in the
combined order key list. -/
theorem sets_sub_combined_keys (a b : List (Val α)) (fl : Bool) :
    ∀ x ∈ pyUnion (pySet (workSeq fl a)) (pySet (workSeq fl b)),
      x ∈ combinedOrderKeys (workSeq fl a) (workSeq fl b) := by
  intro x hx
  rw [mem_combinedOrderKeys]
  rw [mem_pyUnion, mem_pySet, mem_pySet] at hx
  exact hx

/-- The union output is the combined order key list itself. -/
theorem compare_series_union_eq_keys (a b : List (Val α)) (na nb : String)
    (fl : Bool) :
    (compare_series a b na nb fl).union =
      combinedOrderKeys (workSeq fl a) (workSeq fl b) := by
  simp only [compare_series]
  apply orderedList_eq_keys
  · exact sets_sub_combined_keys a b fl
  · intro x hx
    rw [mem_pyUnion, mem_pySet, mem_pySet]
    rw [mem_combinedOrderKeys] at hx
    exact hx

/-- A sorted set whose members all have positions is an ordered sublist of
the order-key list. -/
theorem orderedList_sublist_keys {values keys : List β}
    (h : ∀ x ∈ values, x ∈ keys) : (orderedList values keys).Sublist keys := by
  rw [orderedList_eq_filter h]
  exact List.filter_sublist _

/-- C2: each of the five value lists of the report is ordered by first
appearance: the union list is exactly the first-appearance scan of A's
working sequence followed by B's working sequence (skipping values already
seen), and each of the other four lists is an ordered sublist of it; in
particular, for A = [1,2] and B = [2,1] the union is [1,2]. -/
theorem compare_series_first_appearance_order (a b : List (Val α))
    (na nb : String) (fl : Bool) :
    (compare_series a b na nb fl).union =
      firstAppearanceKeys (workSeq fl a ++ workSeq fl b) ∧
    (compare_series a b na nb fl).intersection.Sublist
      (compare_series a b na nb fl).union ∧
    (compare_series a b na nb fl).only_in_a.Sublist
      (compare_series a b na nb fl).union ∧
    (compare_series a b na nb fl).only_in_b.Sublist
      (compare_series a b na nb fl).union ∧
    (compare_series a b na nb fl).symmetric_difference.Sublist
      (compare_series a b na nb fl).union ∧
    (compare_series ([some 1, some 2] : List (Val Nat)) [some 2, some 1]
      "A" "B" true).union = [some 1, some 2] := by
  have hkeys := compare_series_union_eq_keys a b na nb fl
  have hsub := sets_sub_combined_keys a b fl
  refine ⟨?_, ?_, ?_, ?_, ?_, ?_⟩
  · rw [hkeys, combinedOrderKeys_eq_scan]
  · rw [hkeys]
    simp only [compare_series]
    apply orderedList_sublist_keys
    intro x hx
    exact hsub x (mem_pyUnion.mpr (Or.inl (mem_pyInter.mp hx).1))
  · rw [hkeys]
    simp only [compare_series]
    apply orderedList_sublist_keys
    intro x hx
    exact hsub x (mem_pyUnion.mpr (Or.inl (mem_pyDiff.mp hx).1))
  · rw [hkeys]
    simp only [compare_series]
    apply orderedList_sublist_keys
    intro x hx
    exact hsub x (mem_pyUnion.mpr (Or.inr (mem_pyDiff.mp hx).1))
  · rw [hkeys]
    simp only [compare_series]
    apply orderedList_sublist_keys
    intro x hx
    rcases mem_pySymDiff.mp hx with h' | h'
    · exact hsub x (mem_pyUnion.mpr (Or.inl h'.1))
    · exact hsub x (mem_pyUnion.mpr (Or.inr h'.1))
  · decide

/-- C10: every value of any of the five sets computed by the comparator has
an assigned position in the combined first-appearance order, so the
infinite-position fallback of `_ordered_list` filters nothing: the fallback
tail is empty for each of the five calls the comparator makes. -/
theorem compare_series_no_inf_fallback (a b : List (Val α)) (fl : Bool) :
    ((pyInter (pySet (workSeq fl a)) (pySet (workSeq fl b))).filter
      (fun x => decide (¬ x ∈ combinedOrderKeys (workSeq fl a) (workSeq fl b))) = []) ∧
    ((pyDiff (pySet (workSeq fl a)) (pySet (workSeq fl b))).filter
      (fun x => decide (¬ x ∈ combinedOrderKeys (workSeq fl a) (workSeq fl b))) = []) ∧
    ((pyDiff (pySet (workSeq fl b)) (pySet (workSeq fl a))).filter
      (fun x => decide (¬ x ∈ combinedOrderKeys (workSeq fl a) (workSeq fl b))) = []) ∧
    ((pyUnion (pySet (workSeq fl a)) (pySet (workSeq fl b))).filter
      (fun x => decide (¬ x ∈ combinedOrderKeys (workSeq fl a) (workSeq fl b))) = []) ∧
    ((pySymDiff (pySet (workSeq fl a)) (pySet (workSeq fl b))).filter
      (fun x => decide (¬ x ∈ combinedOrderKeys (workSeq fl a) (workSeq fl b))) = []) := by
  have hsub := sets_sub_combined_keys a b fl
  refine ⟨?_, ?_, ?_, ?_, ?_⟩ <;>
  · rw [List.filter_eq_nil_iff]
    intro v hv
    simp only [decide_not, Bool.not_eq_eq_eq_not, Bool.not_true,
      decide_eq_false_iff_not, not_not]
    apply hsub
    rw [mem_pyUnion]
    first
    | exact Or.inl (mem_pyInter.mp hv).1
    | exact Or.inl (mem_pyDiff.mp hv).1
    | exact Or.inr (mem_pyDiff.mp hv).1
    | exact (mem_pyUnion.mp hv).imp (fun h => h) (fun h => h)
    | rcases mem_pySymDiff.mp hv with h' | h'
      · exact Or.inl h'.1
      · exact Or.inr h'.1

/-- C5: the details table has exactly one row per distinct union value —
its index is the union list itself, so the row count equals the union
length. -/
theorem compare_series_details_row_count (a b : List (Val α)) (na nb : String)
    (fl : Bool) :
    (compare_series a b na nb fl).details.index =
      (compare_series a b na nb fl).union ∧
    (compare_series a b na nb fl).details.index.length =
      (compare_series a b na nb fl).union.length := by
  constructor <;> rfl

/-- C7: the ordering of the returned value lists is a pure function of
first appearance, never of hash or set-iteration order: sorting any
enumeration of the union set (any list with the same members) with the
combined order map reproduces exactly the union list of the report, so
recomputing with identical inputs yields identical ordered outputs. -/
theorem compare_series_enumeration_independent (a b : List (Val α))
    (na nb : String) (fl : Bool) (enum : List (Val α))
    (h1 : ∀ x ∈ enum, x ∈ pyUnion (pySet (workSeq fl a)) (pySet (workSeq fl b)))
    (h2 : ∀ x ∈ pyUnion (pySet (workSeq fl a)) (pySet (workSeq fl b)), x ∈ enum) :
    orderedList enum (combinedOrderKeys (workSeq fl a) (workSeq fl b)) =
      (compare_series a b na nb fl).union := by
  simp only [compare_series]
  rw [orderedList_eq_filter (fun x hx => sets_sub_combined_keys a b fl x (h1 x hx)),
    orderedList_eq_filter (sets_sub_combined_keys a b fl)]
  apply List.filter_congr
  intro x _
  simp only [decide_eq_decide]
  exact ⟨fun h => h1 x h, fun h => h2 x h⟩

/-- Witness for C7 at a concrete input: the enumeration [2,1] of the union
set of A = [1], B = [2] sorts back to the union list. -/
theorem compare_series_enumeration_independent_witness :
    (∀ x ∈ ([some 2, some 1] : List (Val Nat)),
      x ∈ pyUnion (pySet (workSeq true [some 1])) (pySet (workSeq true [some 2]))) ∧
    (∀ x ∈ pyUnion (pySet (workSeq true ([some 1] : List (Val Nat))))
        (pySet (workSeq true [some 2])), x ∈ [some 2, some 1]) ∧
    orderedList ([some 2, some 1] : List (Val Nat))
        (combinedOrderKeys (workSeq true [some 1]) (workSeq true [some 2])) =
      (compare_series [some 1] [some 2] "A" "B" true).union :=
  ⟨by decide, by decide,
    compare_series_enumeration_independent _ _ _ _ _ _ (by decide) (by decide)⟩

/-- C3: when the exclusion flag is false and both raw sequences contain a
missing marker, the missing marker is a member of the returned
intersection (all missing markers compare equal to each other). -/
theorem compare_series_missing_in_intersection (a b : List (Val α))
    (na nb : String) (ha : (none : Val α) ∈ a) (hb : (none : Val α) ∈ b) :
    (none : Val α) ∈ (compare_series a b na nb false).intersection := by
  simp only [compare_series, mem_orderedList, mem_pyInter, mem_pySet,
    mem_workSeq_false]
  exact ⟨ha, hb⟩

/-- Witness for C3 at a concrete input. -/
theorem compare_series_missing_in_intersection_witness :
    ((none : Val Nat) ∈ ([none] : List (Val Nat))) ∧
    ((none : Val Nat) ∈ ([none] : List (Val Nat))) ∧
    (none : Val Nat) ∈
      (compare_series ([none] : List (Val Nat)) [none] "A" "B" false).intersection :=
  ⟨by decide, by decide,
    compare_series_missing_in_intersection _ _ _ _ (by decide) (by decide)⟩

/-- C4: with the default labels, the reported missing-value count for each
sequence is the number of missing markers in that unmodified raw input
sequence, and it is the same whether the exclusion flag is true or false. -/
theorem compare_series_na_counts (a b : List (Val α)) :
    ((compare_series a b "A" "B" true).counts "na_count_A" = some (naCount a)) ∧
    ((compare_series a b "A" "B" true).counts "na_count_B" = some (naCount b)) ∧
    ((compare_series a b "A" "B" false).counts "na_count_A" = some (naCount a)) ∧
    ((compare_series a b "A" "B" false).counts "na_count_B" = some (naCount b)) := by
  refine ⟨?_, ?_, ?_, ?_⟩
  · simp only [compare_series, countsSummary, updN]
    rw [if_neg (by decide), if_pos (by decide)]
  · simp only [compare_series, countsSummary, updN]
    rw [if_pos (by decide)]
  · simp only [compare_series, countsSummary, updN]
    rw [if_neg (by decide), if_pos (by decide)]
  · simp only [compare_series, countsSummary, updN]
    rw [if_pos (by decide)]

/-- A dict update with a zero value preserves all-zero reported counts. -/
theorem updN_getD_zero {d : String → Option Nat} {k : String} {v : Nat}
    (hv : v = 0) (hd : ∀ q, (d q).getD 0 = 0) :
    ∀ q, ((updN d k v) q).getD 0 = 0 := by
  intro q
  unfold updN
  split_ifs
  · simp [hv]
  · exact hd q

/-- C6: the guarded comparator fails exactly when one of the two inputs is
not a pandas Series, and on any pair of Series it returns a report; empty
inputs yield empty intersection, union and details, and all reported
counts are zero. -/
theorem compare_checked_guard (x y : PyObj α) (na nb : String) (fl : Bool) :
    (exceptIsOk (compare_checked x y na nb fl) = (x.isSeries && y.isSeries)) ∧
    (compare_series ([] : List (Val α)) [] na nb fl).intersection = [] ∧
    (compare_series ([] : List (Val α)) [] na nb fl).union = [] ∧
    (compare_series ([] : List (Val α)) [] na nb fl).details.index = [] ∧
    (∀ k, ((compare_series ([] : List (Val α)) [] na nb fl).counts k).getD 0 = 0) := by
  refine ⟨?_, ?_, ?_, ?_, ?_⟩
  · cases x <;> cases y <;> rfl
  · cases fl <;> rfl
  · cases fl <;> rfl
  · cases fl <;> rfl
  · intro k
    have h0 : ∀ q, (((fun _ => none) : String → Option Nat) q).getD 0 = 0 :=
      fun _ => rfl
    cases fl
    · exact updN_getD_zero rfl (updN_getD_zero rfl (updN_getD_zero rfl
        (updN_getD_zero rfl (updN_getD_zero rfl (updN_getD_zero rfl
        (updN_getD_zero rfl (updN_getD_zero rfl (updN_getD_zero rfl
        (updN_getD_zero rfl (updN_getD_zero rfl h0)))))))))) k
    · exact updN_getD_zero rfl (updN_getD_zero rfl (updN_getD_zero rfl
        (updN_getD_zero rfl (updN_getD_zero rfl (updN_getD_zero rfl
        (updN_getD_zero rfl (updN_getD_zero rfl (updN_getD_zero rfl
        (updN_getD_zero rfl (updN_getD_zero rfl h0)))))))))) k

/-- C8: the worked scenario A = ["x","y","y",MISSING,"z"],
B = ["y","z","z","w"] with the default (exclusion) flag. -/
theorem compare_series_scenario :
    ((compare_series ([some "x", some "y", some "y", none, some "z"] : List (Val String))
        [some "y", some "z", some "z", some "w"] "A" "B" true).intersection
      = [some "y", some "z"]) ∧
    ((compare_series ([some "x", some "y", some "y", none, some "z"] : List (Val String))
        [some "y", some "z", some "z", some "w"] "A" "B" true).only_in_a
      = [some "x"]) ∧
    ((compare_series ([some "x", some "y", some "y", none, some "z"] : List (Val String))
        [some "y", some "z", some "z", some "w"] "A" "B" true).only_in_b
      = [some "w"]) ∧
    ((compare_series ([some "x", some "y", some "y", none, some "z"] : List (Val String))
        [some "y", some "z", some "z", some "w"] "A" "B" true).union
      = [some "x", some "y", some "z", some "w"]) ∧
    ((compare_series ([some "x", some "y", some "y", none, some "z"] : List (Val String))
        [some "y", some "z", some "z", some "w"] "A" "B" true).symmetric_difference
      = [some "x", some "w"]) ∧
    ((compare_series ([some "x", some "y", some "y", none, some "z"] : List (Val String))
        [some "y", some "z", some "z", some "w"] "A" "B" true).counts "na_count_A"
      = some 1) ∧
    ((compare_series ([some "x", some "y", some "y", none, some "z"] : List (Val String))
        [some "y", some "z", some "z", some "w"] "A" "B" true).counts "na_count_B"
      = some 0) ∧
    ((compare_series ([some "x", some "y", some "y", none, some "z"] : List (Val String))
        [some "y", some "z", some "z", some "w"] "A" "B" true).value_counts_a (some "y")
      = 2) := by
  decide

/-! ## C9: behaviour when both sequences share one label -/

theorem colSet_same (f : String → Option PyCol) (k : String) (c : PyCol) :
    colSet f k c k = some c := by
  unfold colSet
  rw [if_pos rfl]

theorem colSet_other (f : String → Option PyCol) (k : String) (c : PyCol)
    (q : String) (h : q ≠ k) : colSet f k c q = f q := by
  unfold colSet
  rw [if_neg h]

/-- With a shared label the two presence columns coincide, so both only-in
flag assignments compute `p & ~p`: the surviving only-in column is all
false. -/
theorem dCols_shared_label_flags (idx : List (Val α)) (vca vcb : Val α → Nat)
    (n : String) :
    colBools (dCols5 idx vca vcb n n ("only_in_" ++ n)) =
      List.replicate idx.length false := by
  have e1c : dCols1 idx vca vcb n n ("count_in_" ++ n) =
      some (PyCol.nats (idx.map vcb)) := by
    unfold dCols1
    rw [colSet_other _ _ _ _ (strAppend_ne_of_length n (by decide))]
    unfold dCols0
    exact colSet_same _ _ _
  have e2 : dCols2 idx vca vcb n n ("in_" ++ n) =
      some (PyCol.bools ((idx.map vcb).map (fun c => decide (0 < c)))) := by
    unfold dCols2
    rw [colSet_same, e1c]
    simp only [colNats]
  have e3 : dCols3 idx vca vcb n n ("in_" ++ n) =
      some (PyCol.bools ((idx.map vcb).map (fun c => decide (0 < c)))) := by
    unfold dCols3
    by_cases hb : ("in_" ++ n) = "in_both"
    · unfold colSet
      rw [if_pos hb, e2, zipWith_and_self]
      simp only [colBools]
    · rw [colSet_other _ _ _ _ hb]
      exact e2
  have e4 : dCols4 idx vca vcb n n ("in_" ++ n) =
      some (PyCol.bools ((idx.map vcb).map (fun c => decide (0 < c)))) := by
    unfold dCols4
    rw [colSet_other _ _ _ _ (strAppend_ne_of_length n (by decide))]
    exact e3
  unfold dCols5
  rw [colSet_same, e4, zipWith_and_not_self]
  simp only [colBools, List.length_map]

/-- C9 counterexample: with the shared label "union_values" the
total-length key `n_union_values` is overwritten by the later fixed
union-size entry, so it does not report B's length (here B has length 2
but the key reports 1). -/
theorem compare_series_shared_label_counterexample :
    ((compare_series ([] : List (Val Nat)) [some 0, some 0] "union_values"
        "union_values" true).counts ("n_" ++ "union_values") = some 1) ∧
    ¬ ((compare_series ([] : List (Val Nat)) [some 0, some 0] "union_values"
        "union_values" true).counts ("n_" ++ "union_values")
      = some (List.length [(some 0 : Val Nat), some 0])) := by
  decide

/-- C9 (amended): when the same label is passed for both sequences and the
shared label is none of "overlap_values", "union_values",
"symmetric_difference" (which would collide with the three fixed summary
keys), the counts mapping stores sequence B's metrics under the shared
total-length, distinct-count, exclusive-count and missing-count keys
(B's writes overwrite A's), and in the details table the only-in flag
column is false in every row, because the single shared count column makes
the two presence flags identical. -/
theorem compare_series_shared_label (a b : List (Val α)) (n : String)
    (fl : Bool) (h1 : n ≠ "overlap_values") (h2 : n ≠ "union_values")
    (h3 : n ≠ "symmetric_difference") :
    ((compare_series a b n n fl).counts ("n_" ++ n) = some b.length) ∧
    ((compare_series a b n n fl).counts ("n_unique_" ++ n)
      = some (nunique (dropna b))) ∧
    ((compare_series a b n n fl).counts ("n_only_in_" ++ n)
      = some (pyDiff (pySet (workSeq fl b)) (pySet (workSeq fl a))).length) ∧
    ((compare_series a b n n fl).counts ("na_count_" ++ n)
      = some (naCount b)) ∧
    (colBools ((compare_series a b n n fl).details.col ("only_in_" ++ n))
      = List.replicate (compare_series a b n n fl).details.index.length false) := by
  have dE : ¬ ("n_" ++ n = "na_count_" ++ n) :=
    strAppend_ne_of_length n (by decide)
  have dF : ¬ ("n_" ++ n = "n_symmetric_difference") := fun he =>
    h3 (strAppend_left_cancel (he.trans (by decide)))
  have dG : ¬ ("n_" ++ n = "n_union_values") := fun he =>
    h2 (strAppend_left_cancel (he.trans (by decide)))
  have dH : ¬ ("n_" ++ n = "n_only_in_" ++ n) :=
    strAppend_ne_of_length n (by decide)
  have dI : ¬ ("n_" ++ n = "n_overlap_values") := fun he =>
    h1 (strAppend_left_cancel (he.trans (by decide)))
  have dJ : ¬ ("n_" ++ n = "n_unique_" ++ n) :=
    strAppend_ne_of_length n (by decide)
  have dA : ¬ ("n_unique_" ++ n = "na_count_" ++ n) :=
    strAppend_ne_of_data_ne n n 1 (by decide) (by decide) (by decide)
  have dB : ¬ ("n_unique_" ++ n = "n_symmetric_difference") :=
    strAppend_ne_lit n 2 (by decide) (by decide)
  have dC : ¬ ("n_unique_" ++ n = "n_union_values") :=
    strAppend_ne_lit n 5 (by decide) (by decide)
  have dD : ¬ ("n_unique_" ++ n = "n_overlap_values") :=
    strAppend_ne_lit n 2 (by decide) (by decide)
  have dK : ¬ ("n_unique_" ++ n = "n_only_in_" ++ n) :=
    strAppend_ne_of_length n (by decide)
  have dL : ¬ ("n_only_in_" ++ n = "na_count_" ++ n) :=
    strAppend_ne_of_length n (by decide)
  have dM : ¬ ("n_only_in_" ++ n = "n_symmetric_difference") :=
    strAppend_ne_lit n 2 (by decide) (by decide)
  have dN2 : ¬ ("n_only_in_" ++ n = "n_union_values") :=
    strAppend_ne_lit n 2 (by decide) (by decide)
  refine ⟨?_, ?_, ?_, ?_, ?_⟩
  · simp only [compare_series, countsSummary, updN]
    rw [if_neg dE, if_neg dE, if_neg dF, if_neg dG, if_neg dH, if_neg dH,
      if_neg dI, if_neg dJ, if_neg dJ, if_pos trivial]
  · simp only [compare_series, countsSummary, updN]
    rw [if_neg dA, if_neg dA, if_neg dB, if_neg dC, if_neg dK, if_neg dK,
      if_neg dD, if_pos trivial]
  · simp only [compare_series, countsSummary, updN]
    rw [if_neg dL, if_neg dL, if_neg dM, if_neg dN2, if_pos trivial]
  · simp only [compare_series, countsSummary, updN]
    rw [if_pos trivial]
  · exact dCols_shared_label_flags _ _ _ n

/-- Witness for the amended C9 at a concrete input: A = [1],
B = [1,2,MISSING], shared label "S". -/
theorem compare_series_shared_label_witness :
    ("S" : String) ≠ "overlap_values" ∧
    ("S" : String) ≠ "union_values" ∧
    ("S" : String) ≠ "symmetric_difference" ∧
    (((compare_series ([some 1] : List (Val Nat)) [some 1, some 2, none]
        "S" "S" true).counts ("n_" ++ "S") = some 3) ∧
    ((compare_series ([some 1] : List (Val Nat)) [some 1, some 2, none]
        "S" "S" true).counts ("n_unique_" ++ "S") = some 2) ∧
    ((compare_series ([some 1] : List (Val Nat)) [some 1, some 2, none]
        "S" "S" true).counts ("n_only_in_" ++ "S") = some 1) ∧
    ((compare_series ([some 1] : List (Val Nat)) [some 1, some 2, none]
        "S" "S" true).counts ("na_count_" ++ "S") = some 1) ∧
    (colBools ((compare_series ([some 1] : List (Val Nat)) [some 1, some 2, none]
        "S" "S" true).details.col ("only_in_" ++ "S"))
      = List.replicate 2 false)) :=
  ⟨by decide, by decide, by decide,
    compare_series_shared_label [some 1] [some 1, some 2, none] "S" true
      (by decide) (by decide) (by decide)⟩
